import Mathlib

/-! Client state model of the recon dashboard (`frontend/src`).

A shallow embedding of the state transitions of `App.jsx` and
`components/ResultsTable.jsx`.  A React component is embedded as a record of
its `useState` cells (and the props it reads); every handler becomes a function
on that record.  An `async` handler is cut at its `await`: the part before it
and the continuation are separate transitions, so that other transitions can be
interleaved between them, and the continuation takes the outcome of the awaited
request as an argument.  Values a handler closes over at call time (React
closures see the state of the render that created them) are explicit
arguments of the continuation.

Numbers are embedded as `Int` (ids, pages and totals are integers on the wire).
-/

namespace Bbh

/-! ## Data model -/

/-- An entity id as it arrives in JSON: a number or a string.  Decidable
equality on this type is JavaScript `===` on such values. -/
inductive Id where
  | num (n : Int)
  | str (s : String)
  deriving DecidableEq, Repr

/-- A `Scan` entity of `GET /scans/`. -/
structure Scan where
  id : Id
  domain : String
  status : String
  created_at : String
  completed_at : Option String
  deriving DecidableEq, Repr

/-- The `scans` object of a stats snapshot; every counter may be absent. -/
structure ScanCounters where
  total : Option Int
  completed : Option Int
  running : Option Int
  deriving DecidableEq, Repr

/-- The `subdomains` object of a stats snapshot; every counter may be absent. -/
structure SubdomainCounters where
  total : Option Int
  alive : Option Int
  with_open_ports : Option Int
  deriving DecidableEq, Repr

/-- The stats snapshot of `GET /results/stats`. -/
structure Stats where
  scans : Option ScanCounters
  subdomains : Option SubdomainCounters
  top_technologies : List (String × Int)
  top_ports : List (Int × Int)
  deriving DecidableEq, Repr

/-- A `Result` row of `GET /results/`. -/
structure Result where
  id : Id
  scan_id : Id
  subdomain : String
  ip_address : Option String
  is_alive : Bool
  status_code : Option Int
  title : Option String
  ports : Option (List Int)
  technologies : Option (List String)
  deriving DecidableEq, Repr

/-- What the two awaits `await fetch(..)` / `await res.json()` inside a `try`
give: `failed` when either rejects or the statements after them throw (control
goes to `catch`), `ok data` when the body was decoded to `data`. -/
inductive Fetched (α : Type) where
  | failed
  | ok (data : α)
  deriving DecidableEq, Repr

/-- Body of `GET /scans/`; `scans` is `none` when the field is absent or
falsy. -/
structure ScansBody where
  scans : Option (List Scan)
  deriving DecidableEq, Repr

/-- Body of `GET /results/`; a field is `none` when absent or `null` (for
`total`, `0 || 0` is `0` as well, so `getD 0` is `data.total || 0`). -/
structure ResultsBody where
  results : Option (List Result)
  total : Option Int
  deriving DecidableEq, Repr

/-! ## `App.jsx` -/

/-- The values of `activeTab`. -/
inductive Tab where
  | dashboard
  | scans
  | results
  | scheduled
  deriving DecidableEq, Repr

/-- The `useState` cells of `App`. -/
structure AppState where
  activeTab : Tab
  scans : List Scan
  stats : Option Stats
  selectedScan : Option Id
  loading : Bool
  deriving DecidableEq, Repr

/-- The initial values of the `useState` cells of `App`. -/
def AppState.init : AppState :=
  { activeTab := .dashboard, scans := [], stats := none, selectedScan := none, loading := false }

/-- `fetchScans`, from the point where its requests settle:
`setScans(data.scans || [])`, or nothing in the `catch` branch. -/
def fetchScans (r : Fetched ScansBody) (st : AppState) : AppState :=
  match r with
  | .ok data => { st with scans := data.scans.getD [] }
  | .failed => st

/-- `fetchStats`, from the point where its requests settle: `setStats(data)`,
or nothing in the `catch` branch.  The body may be JSON `null`. -/
def fetchStats (r : Fetched (Option Stats)) (st : AppState) : AppState :=
  match r with
  | .ok data => { st with stats := data }
  | .failed => st

/-- `startScan` up to its first `await`: `setLoading(true)`. -/
def startScan_begin (st : AppState) : AppState :=
  { st with loading := true }

/-- `startScan` after its awaits: on success `setScans(prev => [data, ...prev])`
and `setActiveTab('scans')`; in every case the `finally` block runs
`setLoading(false)`. -/
def startScan_resume (r : Fetched Scan) (st : AppState) : AppState :=
  let st1 :=
    match r with
    | .ok data => { st with scans := data :: st.scans, activeTab := Tab.scans }
    | .failed => st
  { st1 with loading := false }

/-- `startScan` with nothing interleaved between the call and the response. -/
def startScan (r : Fetched Scan) (st : AppState) : AppState :=
  startScan_resume r (startScan_begin st)

/-- `deleteScan(scanId)` after `await fetch(.., DELETE)`; the response body is
never read.  `selectedScan` is the value the closure captured when the handler
was created, `st` the state the updates are applied to.
`setScans(prev => prev.filter(s => s.id !== scanId))`, then
`if (selectedScan === scanId) setSelectedScan(null)`. -/
def deleteScan (scanId : Id) (selectedScan : Option Id) (r : Fetched Unit)
    (st : AppState) : AppState :=
  match r with
  | .ok _ =>
    let st1 := { st with scans := st.scans.filter (fun s => s.id != scanId) }
    if selectedScan = some scanId then { st1 with selectedScan := none } else st1
  | .failed => st

/-- One poll: `fetchScans()` and `fetchStats()` are started together; here the
scan list settles first. -/
def refresh (rs : Fetched ScansBody) (rt : Fetched (Option Stats)) (st : AppState) : AppState :=
  fetchStats rt (fetchScans rs st)

/-- The same poll with the stats response settling first. -/
def refresh_statsFirst (rs : Fetched ScansBody) (rt : Fetched (Option Stats))
    (st : AppState) : AppState :=
  fetchScans rs (fetchStats rt st)

/-- The transitions of `App` that are completions of requests or clicks. -/
inductive Event where
  | scansFetched (r : Fetched ScansBody)
  | statsFetched (r : Fetched (Option Stats))
  | scanSubmitted
  | scanCreated (r : Fetched Scan)
  | deleteSettled (scanId : Id) (selectedScan : Option Id) (r : Fetched Unit)
  | tabClicked (t : Tab)
  | viewClicked (scanId : Id)
  | filterCleared

/-- The step function of `App`: the state after one event. -/
def step (st : AppState) : Event → AppState
  | .scansFetched r => fetchScans r st
  | .statsFetched r => fetchStats r st
  | .scanSubmitted => startScan_begin st
  | .scanCreated r => startScan_resume r st
  | .deleteSettled scanId sel r => deleteScan scanId sel r st
  | .tabClicked t => { st with activeTab := t }
  | .viewClicked scanId => { st with selectedScan := some scanId, activeTab := Tab.results }
  | .filterCleared => { st with selectedScan := none }

/-- The state after a sequence of events, applied left to right. -/
def run (st : AppState) (es : List Event) : AppState :=
  es.foldl step st

/-! ## `components/ResultsTable.jsx` -/

/-- The constant `pageSize`. -/
def pageSize : Int := 50

/-- The prop `scanId` and the `useState` cells of `ResultsTable`. -/
structure Browser where
  scanId : Option Id
  results : List Result
  total : Int
  loading : Bool
  aliveOnly : Bool
  page : Int
  deriving DecidableEq, Repr

/-- `ResultsTable` as mounted with the prop `scanId`. -/
def Browser.init (scanId : Option Id) : Browser :=
  { scanId := scanId, results := [], total := 0, loading := false, aliveOnly := false, page := 0 }

/-- The dependency list `[scanId, aliveOnly, page]` of the fetch effect. -/
structure Tuple where
  scanFilter : Option Id
  aliveOnly : Bool
  page : Int
  deriving DecidableEq, Repr

/-- The parameter tuple the browser is currently at. -/
def Browser.tuple (b : Browser) : Tuple :=
  { scanFilter := b.scanId, aliveOnly := b.aliveOnly, page := b.page }

/-- `fetchResults` up to its first `await`: `setLoading(true)`. -/
def fetchResults_begin (b : Browser) : Browser :=
  { b with loading := true }

/-- `fetchResults` after its awaits: on success `setResults(data.results || [])`
and `setTotal(data.total || 0)`; in every case `finally` runs
`setLoading(false)`. -/
def fetchResults_resume (r : Fetched ResultsBody) (b : Browser) : Browser :=
  let b1 :=
    match r with
    | .ok data =>
      { b with results := data.results.getD [], total := data.total.getD 0 }
    | .failed => b
  { b1 with loading := false }

/-- A request of `fetchResults` that has not settled yet: the tuple the
closure that issued it saw, and the outcome it is going to have. -/
structure InFlight where
  issuedFor : Tuple
  response : Fetched ResultsBody
  deriving DecidableEq, Repr

/-- The continuation of `fetchResults` for an in-flight request.  The code
after the awaits reads none of `scanId`, `aliveOnly`, `page`. -/
def InFlight.settle (f : InFlight) (b : Browser) : Browser :=
  fetchResults_resume f.response b

/-- The `onChange` handler of the "Alive only" checkbox:
`setAliveOnly(e.target.checked); setPage(0)`. -/
def onAliveOnlyChange (checked : Bool) (b : Browser) : Browser :=
  { b with aliveOnly := checked, page := 0 }

/-- The `onClick` handler of Previous: `setPage(p => Math.max(0, p - 1))`. -/
def onPrevious (b : Browser) : Browser :=
  { b with page := max 0 (b.page - 1) }

/-- The `onClick` handler of Next: `setPage(p => p + 1)`. -/
def onNext (b : Browser) : Browser :=
  { b with page := b.page + 1 }

/-- The `disabled` attribute of Previous: `page === 0`. -/
def previousDisabled (page : Int) : Bool :=
  page == 0

/-- The `disabled` attribute of Next: `(page + 1) * pageSize >= total`. -/
def nextDisabled (page total : Int) : Bool :=
  decide ((page + 1) * pageSize ≥ total)

/-- The pagination bar. -/
structure Pagination where
  previousDisabled : Bool
  nextDisabled : Bool
  pageShown : Int
  pageCount : Int
  deriving DecidableEq, Repr

/-- The part of the card below its header. -/
inductive Body where
  | spinner
  | emptyState
  | table (rows : List Result) (pagination : Option Pagination)
  deriving DecidableEq, Repr

/-- The body `ResultsTable` renders: the spinner while `loading`, the empty
state when `results.length === 0`, else one row per entry of `results` and,
when `total > pageSize`, the pagination bar showing
`Page {page + 1} of {Math.ceil(total / pageSize)}`. -/
def render (b : Browser) : Body :=
  if b.loading then .spinner
  else if b.results.length = 0 then .emptyState
  else
    .table b.results
      (if b.total > pageSize then
        some { previousDisabled := previousDisabled b.page,
               nextDisabled := nextDisabled b.page b.total,
               pageShown := b.page + 1,
               pageCount := (b.total + pageSize - 1) / pageSize }
      else none)

/-- The result rows on screen. -/
def displayedRows (b : Browser) : List Result :=
  match render b with
  | .table rows _ => rows
  | _ => []

/-- The transitions of `ResultsTable`. -/
inductive BrowserEvent where
  | fetchIssued
  | fetchSettled (r : Fetched ResultsBody)
  | aliveOnlyChanged (checked : Bool)
  | previousClicked
  | nextClicked
  | scanIdChanged (scanId : Option Id)

/-- The step function of `ResultsTable`. -/
def Browser.step (b : Browser) : BrowserEvent → Browser
  | .fetchIssued => fetchResults_begin b
  | .fetchSettled r => fetchResults_resume r b
  | .aliveOnlyChanged checked => onAliveOnlyChange checked b
  | .previousClicked => onPrevious b
  | .nextClicked => onNext b
  | .scanIdChanged scanId => { b with scanId := scanId }

/-- The browser after a sequence of events, applied left to right. -/
def Browser.run (b : Browser) (es : List BrowserEvent) : Browser :=
  es.foldl Browser.step b

/-- The response of a settled fetch respects the requested `limit`. -/
def BrowserEvent.withinLimit : BrowserEvent → Prop
  | .fetchSettled (.ok data) => ((data.results.getD []).length : Int) ≤ pageSize
  | _ => True

/-! ## Values, requests and effects -/

/-- The string a template literal or `.toString()` gives for an id. -/
def Id.toString : Id → String
  | .num n => ToString.toString n
  | .str s => s

/-- JavaScript truthiness of an id: `0` and `''` are falsy. -/
def Id.truthy : Id → Bool
  | .num n => n != 0
  | .str s => s != ""

/-- JavaScript truthiness of a value that is `null` or an id, as tested by
`if (scanId)`, `!scanId` and `scanId &&`. -/
def truthy : Option Id → Bool
  | none => false
  | some i => i.truthy

/-- The code points `String.prototype.trim` strips: ECMAScript WhiteSpace and
LineTerminator. -/
def isWhiteSpace (c : Char) : Bool :=
  c.toNat = 0x09 || c.toNat = 0x0A || c.toNat = 0x0B || c.toNat = 0x0C || c.toNat = 0x0D
    || c.toNat = 0x20 || c.toNat = 0xA0 || c.toNat = 0x1680
    || (0x2000 ≤ c.toNat && c.toNat ≤ 0x200A)
    || c.toNat = 0x2028 || c.toNat = 0x2029 || c.toNat = 0x202F || c.toNat = 0x205F
    || c.toNat = 0x3000 || c.toNat = 0xFEFF

/-- `String.prototype.trim`: the string without its leading and trailing
white space. -/
def trim (s : String) : String :=
  String.mk ((s.toList.dropWhile isWhiteSpace).reverse.dropWhile isWhiteSpace).reverse

/-- A call of `fetch`: method, URL, and for a JSON body its fields in order. -/
structure Request where
  method : String
  url : String
  body : List (String × String)
  deriving DecidableEq, Repr

/-- What a handler does to the world outside the component state. -/
inductive Effect where
  | alert (message : String)
  | fetch (q : Request)
  | download (filename : String) (content : String)
  | consoleError (message : String)
  deriving DecidableEq, Repr

/-- The effect is a network request. -/
def Effect.isFetch : Effect → Bool
  | .fetch _ => true
  | _ => false

/-! ## `ResultsTable.jsx`: request, export, cells -/

/-- The `URLSearchParams` built by `fetchResults`, in insertion order: `skip`,
`limit`, `alive_only`, then `scan_id` under `if (scanId)`. -/
def fetchResults_params (b : Browser) : List (String × String) :=
  [("skip", toString (b.page * pageSize)),
   ("limit", toString pageSize),
   ("alive_only", toString b.aliveOnly)]
    ++ (match b.scanId with
        | some i => if i.truthy then [("scan_id", i.toString)] else []
        | none => [])

/-- `exportResults`, with the outcome `r` of its request (the body as JSON
text): under `!scanId` an alert and nothing else; otherwise the request, then
the download of `recon_results_${scanId}.json` or, on failure, the log line. -/
def exportResults (apiUrl : String) (scanId : Option Id) (r : Fetched String) : List Effect :=
  match scanId with
  | none => [.alert "Please select a specific scan to export"]
  | some i =>
    if !i.truthy then [.alert "Please select a specific scan to export"]
    else
      .fetch { method := "GET", url := apiUrl ++ "/results/export/" ++ i.toString, body := [] }
        :: (match r with
            | .ok data => [.download ("recon_results_" ++ i.toString ++ ".json") data]
            | .failed => [.consoleError "Export failed:"])

/-- A cell of badges: the badges shown, whether the `-` placeholder is shown
instead, and the count of the `+n` badge when there is one. -/
structure BadgeCell (α : Type) where
  badges : List α
  dash : Bool
  overflow : Option Int
  deriving DecidableEq, Repr

/-- The Ports cell of a row: `r.ports && r.ports.length > 0 ?
r.ports.slice(0, 5).map(..) : '-'`, then `r.ports && r.ports.length > 5 &&
+{r.ports.length - 5}`. -/
def portsCell (r : Result) : BadgeCell Int :=
  match r.ports with
  | none => { badges := [], dash := true, overflow := none }
  | some ports =>
    { badges := if ports.length > 0 then ports.take 5 else [],
      dash := !decide (ports.length > 0),
      overflow := if ports.length > 5 then some ((ports.length : Int) - 5) else none }

/-- The Technologies cell of a row, as the Ports cell with 3 for 5. -/
def technologiesCell (r : Result) : BadgeCell String :=
  match r.technologies with
  | none => { badges := [], dash := true, overflow := none }
  | some technologies =>
    { badges := if technologies.length > 0 then technologies.take 3 else [],
      dash := !decide (technologies.length > 0),
      overflow :=
        if technologies.length > 3 then some ((technologies.length : Int) - 3) else none }

/-- A click on one of the two pagination buttons. -/
inductive Click where
  | previous
  | next
  deriving DecidableEq, Repr

/-- The button is not `disabled` in the browser `b`. -/
def Click.enabled (b : Browser) : Click → Bool
  | .previous => !previousDisabled b.page
  | .next => !nextDisabled b.page b.total

/-- The transition a click triggers. -/
def Click.event : Click → BrowserEvent
  | .previous => .previousClicked
  | .next => .nextClicked

/-- Every click of the sequence is on a button that is enabled in the state
the click is made in. -/
def clicksEnabled (b : Browser) : List Click → Bool
  | [] => true
  | c :: cs => c.enabled b && clicksEnabled (b.step c.event) cs

/-- The event changes one of `scanId`, `aliveOnly`, `page`, the dependencies of
the fetch effect. -/
def BrowserEvent.isChange : BrowserEvent → Bool
  | .aliveOnlyChanged _ => true
  | .previousClicked => true
  | .nextClicked => true
  | .scanIdChanged _ => true
  | _ => false

/-- The body of a successful completion of `fetchResults`, if the event is
one. -/
def BrowserEvent.response : BrowserEvent → Option ResultsBody
  | .fetchSettled (.ok data) => some data
  | _ => none

/-- The body of the last successful completion of `fetchResults` in a
sequence of events, if there is one. -/
def lastResponse : List BrowserEvent → Option ResultsBody
  | [] => none
  | e :: es =>
    match lastResponse es with
    | some data => some data
    | none => e.response

/-- The `loading` flag after a sequence of events, from its value before: the
issue of a fetch sets it, the completion of any fetch clears it, nothing else
touches it. -/
def loadingAfter (loading : Bool) : List BrowserEvent → Bool
  | [] => loading
  | .fetchIssued :: es => loadingAfter true es
  | .fetchSettled _ :: es => loadingAfter false es
  | _ :: es => loadingAfter loading es

/-! ## `components/StatsCards.jsx` -/

/-- The expression `x || 0` for a number `x` that may be absent. -/
def orZero : Option Int → Int
  | some n => if n = 0 then 0 else n
  | none => 0

/-- What `StatsCards` renders: four `--` / `Loading...` cards, or the six
numbers in the order of the cards. -/
inductive StatsView where
  | placeholders (count : Nat) (value : String) (label : String)
  | cards (totalScans subdomainsFound aliveHosts withOpenPorts completedScans runningNow : Int)
  deriving DecidableEq, Repr

/-- The component `StatsCards`: under `!stats` the placeholders, else
`stats.scans?.total || 0`, `stats.subdomains?.total || 0`,
`stats.subdomains?.alive || 0`, `stats.subdomains?.with_open_ports || 0`,
`stats.scans?.completed || 0`, `stats.scans?.running || 0`. -/
def StatsCards (stats : Option Stats) : StatsView :=
  match stats with
  | none => .placeholders 4 "--" "Loading..."
  | some stats =>
    .cards (orZero (stats.scans.bind (·.total)))
      (orZero (stats.subdomains.bind (·.total)))
      (orZero (stats.subdomains.bind (·.alive)))
      (orZero (stats.subdomains.bind (·.with_open_ports)))
      (orZero (stats.scans.bind (·.completed)))
      (orZero (stats.scans.bind (·.running)))

/-! ## `components/ScheduledScans.jsx` -/

/-- A `Schedule` entity of `GET /scans/scheduled/list`. -/
structure Schedule where
  id : Id
  domain : String
  cron_expression : String
  is_active : Bool
  last_run : Option String
  deriving DecidableEq, Repr

/-- The `useState` cells of `ScheduledScans`. -/
structure ScheduledScans where
  schedules : List Schedule
  domain : String
  cronExpression : String
  loading : Bool
  deriving DecidableEq, Repr

/-- The initial values of the `useState` cells of `ScheduledScans`. -/
def ScheduledScans.init : ScheduledScans :=
  { schedules := [], domain := "", cronExpression := "0 0 * * *", loading := false }

/-- `fetchSchedules` after its awaits: `setSchedules(data || [])`. -/
def fetchSchedules (r : Fetched (Option (List Schedule))) (st : ScheduledScans) : ScheduledScans :=
  match r with
  | .ok data => { st with schedules := data.getD [] }
  | .failed => st

/-- The request `createSchedule` sends. -/
def createSchedule_request (apiUrl : String) (st : ScheduledScans) : Request :=
  { method := "POST", url := apiUrl ++ "/scans/scheduled",
    body := [("domain", trim st.domain), ("cron_expression", st.cronExpression)] }

/-- `createSchedule` after its awaits: on success
`setSchedules(prev => [...prev, data])` and `setDomain('')`; in every case
`finally` runs `setLoading(false)`. -/
def createSchedule_resume (r : Fetched Schedule) (st : ScheduledScans) : ScheduledScans :=
  let st1 :=
    match r with
    | .ok data => { st with schedules := st.schedules ++ [data], domain := "" }
    | .failed => st
  { st1 with loading := false }

/-- `createSchedule` with the outcome `r` of its request: `if (!domain.trim())
return`, else `setLoading(true)`, the request, and the continuation. -/
def createSchedule (apiUrl : String) (r : Fetched Schedule) (st : ScheduledScans) :
    List Effect × ScheduledScans :=
  if trim st.domain = "" then ([], st)
  else
    (.fetch (createSchedule_request apiUrl st)
        :: (match r with
            | .ok _ => []
            | .failed => [.consoleError "Failed to create schedule:"]),
      createSchedule_resume r { st with loading := true })

/-- `deleteSchedule(id)` after `await fetch(.., DELETE)`:
`setSchedules(prev => prev.filter(s => s.id !== id))`. -/
def deleteSchedule (id : Id) (r : Fetched Unit) (st : ScheduledScans) : ScheduledScans :=
  match r with
  | .ok _ => { st with schedules := st.schedules.filter (fun s => s.id != id) }
  | .failed => st

/-- `toggleSchedule(id)` after its awaits:
`setSchedules(prev => prev.map(s => s.id === id ? data : s))`. -/
def toggleSchedule (id : Id) (r : Fetched Schedule) (st : ScheduledScans) : ScheduledScans :=
  match r with
  | .ok data => { st with schedules := st.schedules.map (fun s => if s.id = id then data else s) }
  | .failed => st

/-! ## Sample data -/

/-- A scan with id `1`. -/
def scan1 : Scan :=
  { id := .num 1, domain := "example.com", status := "running",
    created_at := "2024-01-01T00:00:00", completed_at := none }

/-- A scan with id `2`. -/
def scan2 : Scan :=
  { id := .num 2, domain := "acme.com", status := "completed",
    created_at := "2024-01-02T00:00:00", completed_at := some "2024-01-02T01:00:00" }

/-- A result row of scan `1`. -/
def row1 : Result :=
  { id := .num 10, scan_id := .num 1, subdomain := "www.example.com", ip_address := none,
    is_alive := true, status_code := some 200, title := none,
    ports := some [80, 443], technologies := none }

/-- An `App` holding the scans `1` and `2`, with scan `1` selected. -/
def app12 : AppState :=
  { activeTab := .scans, scans := [scan1, scan2], stats := none,
    selectedScan := some (.num 1), loading := false }

/-- A browser at page `1` of all scans, holding nothing, its fetch pending. -/
def browserAtPage1 : Browser :=
  { scanId := none, results := [], total := 0, loading := true, aliveOnly := false, page := 1 }

/-- A fetch issued while the browser was at page `0`, answered with one row. -/
def staleFetch : InFlight :=
  { issuedFor := { scanFilter := none, aliveOnly := false, page := 0 },
    response := .ok { results := some [row1], total := some 1 } }

/-- A browser holding one row of a total of 120, at page `0`. -/
def browserWithRow : Browser :=
  { scanId := none, results := [row1], total := 120, loading := false, aliveOnly := false,
    page := 0 }

/-- A browser whose selected scan has the id `0`. -/
def browserScanZero : Browser :=
  { scanId := some (.num 0), results := [], total := 0, loading := false, aliveOnly := false,
    page := 0 }

/-- The schedule the server returns for `acme.com`, paused. -/
def scheduleAcme : Schedule :=
  { id := .num 7, domain := "acme.com", cron_expression := "0 0 * * *", is_active := false,
    last_run := none }

/-! ## Lemmas on lists of scans -/

theorem filter_id_ne_of_not_mem (X : Id) (l : List Scan) (h : X ∉ l.map Scan.id) :
    l.filter (fun s => s.id != X) = l := by
  rw [List.filter_eq_self]
  intro s hs
  have hne : s.id ≠ X := fun e => h (e ▸ List.mem_map_of_mem Scan.id hs)
  simpa using hne

theorem filter_id_ne_length (X : Id) (l : List Scan) (hnodup : (l.map Scan.id).Nodup)
    (hmem : X ∈ l.map Scan.id) :
    (l.filter (fun s => s.id != X)).length + 1 = l.length := by
  induction l with
  | nil => simp at hmem
  | cons s t ih =>
    rw [List.map_cons, List.nodup_cons] at hnodup
    by_cases hs : s.id = X
    · have hX : X ∉ t.map Scan.id := hs ▸ hnodup.1
      have hdrop : (s :: t).filter (fun s => s.id != X) = t.filter (fun s => s.id != X) := by
        simp [List.filter_cons, hs]
      rw [hdrop, filter_id_ne_of_not_mem X t hX, List.length_cons]
    · have hX : X ∈ t.map Scan.id := by
        rw [List.map_cons, List.mem_cons] at hmem
        rcases hmem with h | h
        · exact absurd h.symm hs
        · exact h
      have hkeep : (s :: t).filter (fun s => s.id != X)
          = s :: t.filter (fun s => s.id != X) := by
        simp [List.filter_cons, hs]
      rw [hkeep, List.length_cons, ih hnodup.2 hX, List.length_cons]

theorem filter_id_ne_no_mem (X : Id) (l : List Scan) :
    ∀ s ∈ l.filter (fun s => s.id != X), s.id ≠ X := by
  intro s hs
  have := (List.mem_filter.mp hs).2
  simpa using this

/-! ## Deleting a scan -/

/-- C1: for a scan collection with unique ids that holds an entity with id `X`,
once the delete request of `deleteScan(X)` has completed the collection is one
entity shorter and holds no entity with id `X`, and when the selection the
handler saw was `X` the selection is `null` afterwards.  The selection seen by
the handler is `sel`; the statement holds for every selection the state itself
carries, in particular for `st.selectedScan = sel`. -/
theorem deleteScan_removes_exactly_one (st : AppState) (X : Id) (sel : Option Id)
    (hnodup : (st.scans.map Scan.id).Nodup) (hmem : X ∈ st.scans.map Scan.id) :
    (deleteScan X sel (.ok ()) st).scans.length + 1 = st.scans.length
      ∧ (∀ s ∈ (deleteScan X sel (.ok ()) st).scans, s.id ≠ X)
      ∧ (sel = some X → (deleteScan X sel (.ok ()) st).selectedScan = none) := by
  have hscans : (deleteScan X sel (.ok ()) st).scans
      = st.scans.filter (fun s => s.id != X) := by
    unfold deleteScan
    split_ifs <;> rfl
  refine ⟨?_, ?_, ?_⟩
  · rw [hscans]; exact filter_id_ne_length X st.scans hnodup hmem
  · rw [hscans]; exact filter_id_ne_no_mem X st.scans
  · intro hsel
    simp [deleteScan, hsel]

/-- C1 at the scans `[1, 2]` with scan `1` selected: deleting `1` leaves `[2]`
and no selection. -/
theorem deleteScan_removes_exactly_one_witness :
    (deleteScan (.num 1) app12.selectedScan (.ok ()) app12).scans.length + 1 = app12.scans.length
      ∧ (∀ s ∈ (deleteScan (.num 1) app12.selectedScan (.ok ()) app12).scans, s.id ≠ .num 1)
      ∧ (app12.selectedScan = some (.num 1) →
          (deleteScan (.num 1) app12.selectedScan (.ok ()) app12).selectedScan = none) :=
  deleteScan_removes_exactly_one app12 (.num 1) app12.selectedScan (by decide) (by decide)

/-- C2 as stated fails: with scan `1` held locally, the delete of `1`
completes and then a refresh response that still lists `1` is applied; scan
`1` is in the collection again. -/
theorem refresh_after_delete_resurrects :
    ¬ (∀ s ∈ (run app12 [Event.deleteSettled (.num 1) app12.selectedScan (.ok ()),
                        Event.scansFetched (.ok { scans := some [scan1, scan2] })]).scans,
        s.id ≠ .num 1) := by
  decide

/-- C2, amended: when a refresh response is applied after the local removal
of `X`, the collection is exactly the list the response carries, so it holds
no entity with id `X` exactly when that list holds none; when the refresh
response is applied before the delete completes, the collection holds no
entity with id `X` afterwards. -/
theorem refresh_after_delete_is_server_list (st : AppState) (X : Id) (sel : Option Id)
    (body : ScansBody) :
    (run st [Event.deleteSettled X sel (.ok ()), Event.scansFetched (.ok body)]).scans
        = body.scans.getD []
      ∧ ((∀ s ∈ (run st [Event.deleteSettled X sel (.ok ()),
                         Event.scansFetched (.ok body)]).scans, s.id ≠ X)
          ↔ ∀ s ∈ body.scans.getD [], s.id ≠ X)
      ∧ (∀ s ∈ (run st [Event.scansFetched (.ok body),
                        Event.deleteSettled X sel (.ok ())]).scans, s.id ≠ X) := by
  have h1 : (run st [Event.deleteSettled X sel (.ok ()), Event.scansFetched (.ok body)]).scans
      = body.scans.getD [] := by
    simp [run, step, fetchScans]
  have h2 : (run st [Event.scansFetched (.ok body), Event.deleteSettled X sel (.ok ())]).scans
      = (body.scans.getD []).filter (fun s => s.id != X) := by
    simp only [run, List.foldl, step, fetchScans, deleteScan]
    split_ifs <;> rfl
  refine ⟨h1, ?_, ?_⟩
  · rw [h1]
  · rw [h2]; exact filter_id_ne_no_mem X _

/-! ## Responses of the result browser -/

/-- C3 as stated fails: the browser is at page `1`, a fetch issued for page
`0` settles with one row and total `1`; the tuples differ, and the held
results and total are overwritten. -/
theorem stale_response_overwrites :
    staleFetch.issuedFor ≠ browserAtPage1.tuple
      ∧ ¬ ((staleFetch.settle browserAtPage1).results = browserAtPage1.results
            ∧ (staleFetch.settle browserAtPage1).total = browserAtPage1.total) := by
  decide

/-- C3, amended: whatever tuple a fetch was issued for and whatever tuple the
browser is at when it settles, a successful response replaces the held results
and total by its own (`[]` and `0` for absent fields), a failed one leaves them
unchanged, and neither changes the current tuple. -/
theorem settle_ignores_issuing_tuple (T : Tuple) (b : Browser) (data : ResultsBody) :
    (InFlight.settle { issuedFor := T, response := .ok data } b).results = data.results.getD []
      ∧ (InFlight.settle { issuedFor := T, response := .ok data } b).total = data.total.getD 0
      ∧ (InFlight.settle { issuedFor := T, response := .failed } b).results = b.results
      ∧ (InFlight.settle { issuedFor := T, response := .failed } b).total = b.total
      ∧ (InFlight.settle { issuedFor := T, response := .ok data } b).tuple = b.tuple
      ∧ (InFlight.settle { issuedFor := T, response := .failed } b).tuple = b.tuple := by
  simp [InFlight.settle, fetchResults_resume, Browser.tuple]

/-! ## Pagination and rows of the result browser -/

/-- The body rendered when the table branch is taken and `total > pageSize`:
the rows and the pagination bar with its two flags. -/
theorem render_with_bar (b : Browser) (hl : b.loading = false) (hr : b.results ≠ [])
    (ht : b.total > 50) :
    render b = .table b.results (some
      { previousDisabled := decide (b.page = 0),
        nextDisabled := decide ((b.page + 1) * 50 ≥ b.total),
        pageShown := b.page + 1,
        pageCount := (b.total + 49) / 50 }) := by
  have hlen : ¬ b.results.length = 0 := fun h => hr (List.length_eq_zero.mp h)
  have ht2 : b.total > pageSize := ht
  unfold render
  rw [if_neg (by simp [hl]), if_neg hlen, if_pos ht2]
  simp only [previousDisabled, nextDisabled, pageSize, Body.table.injEq, Option.some.injEq,
    Pagination.mk.injEq, true_and]
  refine ⟨?_, ?_⟩
  · by_cases h : b.page = 0 <;> simp [h]
  · have : b.total + 50 - 1 = b.total + 49 := by omega
    rw [this]

/-- C4: Previous is disabled exactly when `page = 0` and Next exactly when
`(page + 1) * 50 ≥ total`, for every page and total.  These are the flags of
the bar on screen: a browser that is not loading, holds rows and has
`total > 50` renders the table with the bar whose Previous flag is
`page = 0` and whose Next flag is `(page + 1) * 50 ≥ total`, and a bar is
rendered in no other state; the flags are functions of `page` and `total`
alone.  With `total = 120`, the bar rendered at page `0` has Previous disabled
and Next enabled, and the bar rendered at page `2` has Next disabled. -/
theorem pagination_controls (page total : Int) :
    (previousDisabled page = true ↔ page = 0)
      ∧ (nextDisabled page total = true ↔ (page + 1) * 50 ≥ total)
      ∧ (∀ b : Browser, b.page = page → b.total = total → b.loading = false →
          b.results ≠ [] → total > 50 →
          render b = .table b.results (some
            { previousDisabled := decide (page = 0),
              nextDisabled := decide ((page + 1) * 50 ≥ total),
              pageShown := page + 1,
              pageCount := (total + 49) / 50 }))
      ∧ (∀ (b : Browser) (rows : List Result) (p : Pagination),
          b.page = page → b.total = total → render b = .table rows (some p) →
            b.loading = false ∧ b.results ≠ [] ∧ total > 50 ∧ rows = b.results
              ∧ p.previousDisabled = previousDisabled page
              ∧ p.nextDisabled = nextDisabled page total)
      ∧ previousDisabled 0 = true ∧ nextDisabled 0 120 = false ∧ nextDisabled 2 120 = true
      ∧ (∀ b : Browser, b.loading = false → b.results ≠ [] → b.total = 120 → b.page = 0 →
          render b = .table b.results (some
            { previousDisabled := true, nextDisabled := false, pageShown := 1, pageCount := 3 }))
      ∧ (∀ b : Browser, b.loading = false → b.results ≠ [] → b.total = 120 → b.page = 2 →
          render b = .table b.results (some
            { previousDisabled := false, nextDisabled := true, pageShown := 3, pageCount := 3 }))
      ∧ render browserWithRow = .table [row1] (some
            { previousDisabled := true, nextDisabled := false, pageShown := 1, pageCount := 3 })
      ∧ render { browserWithRow with page := 2 } = .table [row1] (some
            { previousDisabled := false, nextDisabled := true, pageShown := 3, pageCount := 3 }) := by
  refine ⟨by simp [previousDisabled], by simp [nextDisabled, pageSize], ?_, ?_, by decide,
    by decide, by decide, ?_, ?_, by decide, by decide⟩
  · intro b hp ht hl hr htot
    have h := render_with_bar b hl hr (by omega)
    rw [hp, ht] at h
    exact h
  · intro b rows p hp ht hr
    unfold render at hr
    split_ifs at hr with h1 h2 h3
    · simp only [Body.table.injEq, Option.some.injEq] at hr
      have hne : b.results ≠ [] := fun h => h2 (by simp [h])
      have h3b : b.total > 50 := h3
      refine ⟨by simpa using h1, hne, by omega, hr.1.symm, ?_, ?_⟩
      · rw [← hr.2, hp]
      · rw [← hr.2, hp, ht]
    · simp at hr
  · intro b hl hr ht hp
    have h := render_with_bar b hl hr (by omega)
    rw [hp, ht] at h
    exact h
  · intro b hl hr ht hp
    have h := render_with_bar b hl hr (by omega)
    rw [hp, ht] at h
    exact h

/-- The rows on screen are the held results, or none while loading. -/
theorem displayedRows_length_le (b : Browser) :
    (displayedRows b).length ≤ b.results.length := by
  unfold displayedRows render
  split_ifs <;> simp

/-- A response within the limit keeps the held results within the limit. -/
theorem step_results_le (b : Browser) (e : BrowserEvent) (he : e.withinLimit)
    (hb : (b.results.length : Int) ≤ pageSize) :
    ((b.step e).results.length : Int) ≤ pageSize := by
  cases e with
  | fetchSettled r =>
    cases r with
    | failed => exact hb
    | ok data => exact he
  | _ => exact hb

theorem run_results_le (es : List BrowserEvent) :
    ∀ b : Browser, (∀ e ∈ es, e.withinLimit) → (b.results.length : Int) ≤ pageSize →
      (((b.run es).results.length : Int) ≤ pageSize) := by
  induction es with
  | nil => intro b _ hb; exact hb
  | cons e es ih =>
    intro b hes hb
    have hstep := step_results_le b e (hes e (List.mem_cons_self e es)) hb
    exact ih (b.step e) (fun e' he' => hes e' (List.mem_cons_of_mem e he')) hstep

/-- C5 as stated fails: a response carrying 51 rows is applied and 51 rows are
on screen. -/
theorem displayed_rows_exceed_page_size :
    ¬ ((displayedRows (fetchResults_resume
          (.ok { results := some (List.replicate 51 row1), total := some 51 })
          (fetchResults_begin (Browser.init none)))).length ≤ 50) := by
  decide

/-- C5, amended: the rows on screen after a successful response are exactly
the rows of that response (none when `results` is absent), the client
truncating nothing; and from mount on, through every sequence of fetches,
toggles, page clicks and prop changes in which each applied response carries
at most 50 rows, the number of rows on screen never exceeds 50. -/
theorem displayed_rows_within_limit (scanId : Option Id) (es : List BrowserEvent)
    (hes : ∀ e ∈ es, e.withinLimit) :
    ((displayedRows ((Browser.init scanId).run es)).length ≤ 50)
      ∧ ∀ (b : Browser) (data : ResultsBody),
          displayedRows (fetchResults_resume (.ok data) b) = data.results.getD [] := by
  constructor
  · have h := run_results_le es (Browser.init scanId) hes (by simp [Browser.init, pageSize])
    have h2 := displayedRows_length_le ((Browser.init scanId).run es)
    simp only [pageSize] at h
    omega
  · intro b data
    unfold displayedRows render fetchResults_resume
    cases hres : data.results.getD [] with
    | nil => simp [hres]
    | cons r rs => simp [hres]

/-- C5 amended, at a mount followed by a fetch answered with one row. -/
theorem displayed_rows_within_limit_witness :
    (displayedRows ((Browser.init none).run
        [.fetchIssued, .fetchSettled (.ok { results := some [row1], total := some 1 })])).length
        ≤ 50
      ∧ ∀ (b : Browser) (data : ResultsBody),
          displayedRows (fetchResults_resume (.ok data) b) = data.results.getD [] :=
  displayed_rows_within_limit none
    [.fetchIssued, .fetchSettled (.ok { results := some [row1], total := some 1 })]
    (by
      intro e he
      simp only [List.mem_cons, List.mem_singleton, List.not_mem_nil, or_false] at he
      rcases he with h | h
      · subst h; trivial
      · subst h; simp [BrowserEvent.withinLimit, pageSize])

/-- C6: the handler of the "Alive only" checkbox, given the new value
`checked`, yields the state with `aliveOnly = checked` and `page = 0`, every
other cell as before. -/
theorem onAliveOnlyChange_resets_page (b : Browser) (checked : Bool) :
    onAliveOnlyChange checked b = { b with aliveOnly := checked, page := 0 }
      ∧ (onAliveOnlyChange checked b).aliveOnly = checked
      ∧ (onAliveOnlyChange checked b).page = 0 :=
  ⟨rfl, rfl, rfl⟩

/-! ## Polling -/

/-- C7: `refresh` is idempotent: applying the same pair of responses (scan
list, stats snapshot) a second time gives the state that applying it once
gives, in particular the same scan collection and stats snapshot; this holds
for successful and failed responses and for both orders in which the two
requests of a poll can settle. -/
theorem refresh_idempotent (st : AppState) (rs : Fetched ScansBody)
    (rt : Fetched (Option Stats)) :
    refresh rs rt (refresh rs rt st) = refresh rs rt st
      ∧ (refresh rs rt (refresh rs rt st)).scans = (refresh rs rt st).scans
      ∧ (refresh rs rt (refresh rs rt st)).stats = (refresh rs rt st).stats
      ∧ refresh_statsFirst rs rt (refresh_statsFirst rs rt st) = refresh_statsFirst rs rt st
      ∧ refresh_statsFirst rs rt (refresh rs rt st) = refresh rs rt st := by
  cases rs <;> cases rt <;> simp [refresh, refresh_statsFirst, fetchScans, fetchStats]

/-- C8: a failed scan-list fetch leaves the scan collection as it was and a
failed stats fetch leaves the stats snapshot as it was; `fetchScans` never
writes `stats` and `fetchStats` never writes `scans`, so in a poll, whatever
the two outcomes and whichever settles first, the scan collection is what
`fetchScans` alone gives and the stats snapshot what `fetchStats` alone
gives. -/
theorem refresh_failures_independent (st : AppState) (rs : Fetched ScansBody)
    (rt : Fetched (Option Stats)) :
    (fetchScans .failed st).scans = st.scans
      ∧ (fetchStats .failed st).stats = st.stats
      ∧ (fetchScans rs st).stats = st.stats
      ∧ (fetchStats rt st).scans = st.scans
      ∧ (refresh rs rt st).scans = (fetchScans rs st).scans
      ∧ (refresh rs rt st).stats = (fetchStats rt st).stats
      ∧ (refresh_statsFirst rs rt st).scans = (fetchScans rs st).scans
      ∧ (refresh_statsFirst rs rt st).stats = (fetchStats rt st).stats
      ∧ (refresh .failed rt st).scans = st.scans
      ∧ (refresh rs .failed st).stats = st.stats := by
  cases rs <;> cases rt <;> simp [refresh, refresh_statsFirst, fetchScans, fetchStats]

/-! ## Starting a scan -/

/-- C9: when the create request succeeds with the scan `s`, `startScan` leaves
the collection equal to `s` followed by the former collection (`s` at index
0, length one more, the former entries unchanged and in order one index
later) and the active view is the scan list; the same holds for the
continuation applied to any state reached in the meantime. -/
theorem startScan_prepends (st : AppState) (s : Scan) :
    (startScan (.ok s) st).scans = s :: st.scans
      ∧ (startScan (.ok s) st).scans[0]? = some s
      ∧ (startScan (.ok s) st).scans.length = st.scans.length + 1
      ∧ (∀ i : Nat, (startScan (.ok s) st).scans[i + 1]? = st.scans[i]?)
      ∧ (startScan (.ok s) st).activeTab = Tab.scans
      ∧ (startScan_resume (.ok s) st).scans = s :: st.scans
      ∧ (startScan_resume (.ok s) st).activeTab = Tab.scans := by
  simp [startScan, startScan_resume, startScan_begin]

/-- C10: whatever the outcome of the create request, the busy flag is `false`
once `startScan` has finished (also when other transitions ran between the
call and the response); when the request fails, the scan collection and the
active view are what they were before the call. -/
theorem startScan_clears_loading (st : AppState) (r : Fetched Scan) :
    (startScan r st).loading = false
      ∧ (startScan_resume r st).loading = false
      ∧ (startScan .failed st).scans = st.scans
      ∧ (startScan .failed st).activeTab = st.activeTab
      ∧ (startScan_resume .failed st).scans = st.scans
      ∧ (startScan_resume .failed st).activeTab = st.activeTab := by
  cases r <;> simp [startScan, startScan_resume, startScan_begin]

/-! ## Export and the list-results request -/

/-- C11: for every browser whose `scanId` is `null`, `exportResults` raises the
alert "Please select a specific scan to export" and does nothing else; in
particular none of its effects is a network request, whatever a request
would have answered. -/
theorem exportResults_without_scan_alerts (apiUrl : String) (b : Browser) (r : Fetched String)
    (h : b.scanId = none) :
    exportResults apiUrl b.scanId r = [.alert "Please select a specific scan to export"]
      ∧ (exportResults apiUrl b.scanId r).filter Effect.isFetch = [] := by
  rw [h]
  exact ⟨rfl, rfl⟩

/-- C11 at a freshly mounted browser with no scan selected. -/
theorem exportResults_without_scan_alerts_witness :
    exportResults "http://localhost:8888" (Browser.init none).scanId (.ok "[]")
        = [.alert "Please select a specific scan to export"]
      ∧ (exportResults "http://localhost:8888" (Browser.init none).scanId (.ok "[]")).filter
          Effect.isFetch = [] :=
  exportResults_without_scan_alerts "http://localhost:8888" (Browser.init none) (.ok "[]") rfl

/-- C12 on the code: the request of `fetchResults` carries `skip = page * 50`,
`limit = 50` and `alive_only = aliveOnly` for every state, carries `scan_id`
for every truthy `scanId` and omits it for `null`; but at the selected scan id
`0`, which is not `null`, the request is `skip=0&limit=50&alive_only=false`
with no `scan_id`, because `if (scanId)` tests truthiness. -/
theorem fetchResults_params_omit_zero_id (b : Browser) :
    (fetchResults_params b).lookup "skip" = some (toString (b.page * 50))
      ∧ (fetchResults_params b).lookup "limit" = some "50"
      ∧ (fetchResults_params b).lookup "alive_only" = some (toString b.aliveOnly)
      ∧ (fetchResults_params b).lookup "scan_id"
          = (if truthy b.scanId then b.scanId.map Id.toString else none)
      ∧ browserScanZero.scanId ≠ none
      ∧ fetchResults_params browserScanZero
          = [("skip", "0"), ("limit", "50"), ("alive_only", "false")]
      ∧ (fetchResults_params browserScanZero).lookup "scan_id" = none := by
  refine ⟨by simp [fetchResults_params, List.lookup, pageSize], ?_, ?_, ?_, by decide, by decide,
    by decide⟩
  · simp [fetchResults_params, List.lookup]
    rfl
  · simp [fetchResults_params, List.lookup]
  · rcases b with ⟨scanId, results, total, loading, aliveOnly, page⟩
    cases scanId with
    | none => simp [fetchResults_params, List.lookup, truthy]
    | some i =>
      by_cases hi : i.truthy = true
      · simp [fetchResults_params, List.lookup, truthy, hi]
      · simp [fetchResults_params, List.lookup, truthy, hi]

/-! ## Parameter changes of the result browser -/

/-- When not loading, the rows on screen are the held results. -/
theorem displayedRows_of_not_loading (b : Browser) (h : b.loading = false) :
    displayedRows b = b.results := by
  unfold displayedRows render
  cases hres : b.results with
  | nil => simp [h, hres]
  | cons r rs => simp [h, hres]

/-- While loading, no row is on screen. -/
theorem displayedRows_of_loading (b : Browser) (h : b.loading = true) :
    displayedRows b = [] := by
  simp [displayedRows, render, h]

/-- A parameter change leaves the held results as they are. -/
theorem step_isChange_results (b : Browser) (e : BrowserEvent) (he : e.isChange = true) :
    (b.step e).results = b.results := by
  cases e <;> first | rfl | simp [BrowserEvent.isChange] at he

/-- C13 as stated fails: the browser shows one row at page `0`; Next is
clicked, the fetch for page `1` is issued and fails; the browser is at another
tuple and the row held from page `0` is on screen. -/
theorem failed_fetch_shows_previous_rows :
    (browserWithRow.run [.nextClicked, .fetchIssued, .fetchSettled .failed]).tuple
        ≠ browserWithRow.tuple
      ∧ ¬ (∀ r ∈ displayedRows
              (browserWithRow.run [.nextClicked, .fetchIssued, .fetchSettled .failed]),
            r ∉ browserWithRow.results) := by
  decide

/-- The held results after a sequence of events are the rows of the last
successful response in it, or the results held before when there is none. -/
theorem run_results (es : List BrowserEvent) :
    ∀ b : Browser, (b.run es).results
      = (match lastResponse es with
         | some data => data.results.getD []
         | none => b.results) := by
  induction es with
  | nil => intro b; rfl
  | cons e es ih =>
    intro b
    have hrun : b.run (e :: es) = (b.step e).run es := rfl
    rw [hrun, ih (b.step e)]
    cases hl : lastResponse es with
    | some data => simp [lastResponse, hl]
    | none =>
      simp only [lastResponse, hl]
      cases e with
      | fetchSettled r => cases r <;> rfl
      | _ => rfl

/-- The `loading` flag after a sequence of events. -/
theorem run_loading (es : List BrowserEvent) :
    ∀ b : Browser, (b.run es).loading = loadingAfter b.loading es := by
  induction es with
  | nil => intro b; rfl
  | cons e es ih =>
    intro b
    have hrun : b.run (e :: es) = (b.step e).run es := rfl
    rw [hrun, ih (b.step e)]
    cases e with
    | fetchSettled r => cases r <;> rfl
    | _ => rfl

/-- The rows on screen: none while loading, else the held results. -/
theorem displayedRows_eq (b : Browser) :
    displayedRows b = if b.loading = true then [] else b.results := by
  cases h : b.loading with
  | true => simp [displayedRows_of_loading b h]
  | false => simp [displayedRows_of_not_loading b h]

/-- C13, amended: a change of `scanId`, `aliveOnly` or `page` leaves the held
rows as they are.  After the change and any further sequence of changes,
fetch issues and fetch completions (of the fetch the change triggers or of
any other), the rows held are those of the last successful response applied
since the change, or the rows held before the change when there is none; no
row is on screen while `loading` is set (the issue of a fetch sets it, the
completion of any fetch clears it) and the held rows are on screen whenever
it is clear.  So as long as no response has succeeded since the change, the
rows held before the change are on screen under the new tuple whenever
`loading` is clear. -/
theorem change_keeps_rows_until_response (b : Browser) (e : BrowserEvent)
    (es : List BrowserEvent) (he : e.isChange = true) :
    (b.step e).results = b.results
      ∧ ((b.step e).run es).results
          = (match lastResponse es with
             | some data => data.results.getD []
             | none => b.results)
      ∧ ((b.step e).run es).loading = loadingAfter b.loading es
      ∧ displayedRows ((b.step e).run es)
          = (if loadingAfter b.loading es = true then []
             else match lastResponse es with
               | some data => data.results.getD []
               | none => b.results)
      ∧ (lastResponse es = none → loadingAfter b.loading es = false →
          displayedRows ((b.step e).run es) = b.results) := by
  have hres := step_isChange_results b e he
  have hload : (b.step e).loading = b.loading := by
    cases e <;> first | rfl | simp [BrowserEvent.isChange] at he
  have h2 := run_results es (b.step e)
  rw [hres] at h2
  have h3 := run_loading es (b.step e)
  rw [hload] at h3
  have h4 := displayedRows_eq ((b.step e).run es)
  rw [h3, h2] at h4
  refine ⟨hres, h2, h3, h4, ?_⟩
  intro hnone hfalse
  rw [h4, hnone, hfalse]
  simp

/-- C13 amended, at a browser showing one row: Next is clicked and its fetch
issued, the checkbox is ticked and a second fetch issued, then the first
fetch fails: the second is still pending and the row held from page `0` is
on screen. -/
theorem change_keeps_rows_until_response_witness :
    ((browserWithRow.step .nextClicked).results = browserWithRow.results
      ∧ ((browserWithRow.step .nextClicked).run
            [.fetchIssued, .aliveOnlyChanged true, .fetchIssued, .fetchSettled .failed]).results
          = (match lastResponse
                [.fetchIssued, .aliveOnlyChanged true, .fetchIssued, .fetchSettled .failed] with
             | some data => data.results.getD []
             | none => browserWithRow.results)
      ∧ ((browserWithRow.step .nextClicked).run
            [.fetchIssued, .aliveOnlyChanged true, .fetchIssued, .fetchSettled .failed]).loading
          = loadingAfter browserWithRow.loading
              [.fetchIssued, .aliveOnlyChanged true, .fetchIssued, .fetchSettled .failed]
      ∧ displayedRows ((browserWithRow.step .nextClicked).run
            [.fetchIssued, .aliveOnlyChanged true, .fetchIssued, .fetchSettled .failed])
          = (if loadingAfter browserWithRow.loading
                [.fetchIssued, .aliveOnlyChanged true, .fetchIssued, .fetchSettled .failed] = true
             then []
             else match lastResponse
                 [.fetchIssued, .aliveOnlyChanged true, .fetchIssued, .fetchSettled .failed] with
               | some data => data.results.getD []
               | none => browserWithRow.results)
      ∧ (lastResponse [.fetchIssued, .aliveOnlyChanged true, .fetchIssued, .fetchSettled .failed]
            = none →
          loadingAfter browserWithRow.loading
              [.fetchIssued, .aliveOnlyChanged true, .fetchIssued, .fetchSettled .failed] = false →
          displayedRows ((browserWithRow.step .nextClicked).run
            [.fetchIssued, .aliveOnlyChanged true, .fetchIssued, .fetchSettled .failed])
            = browserWithRow.results))
      ∧ displayedRows ((browserWithRow.step .nextClicked).run
            [.fetchIssued, .aliveOnlyChanged true, .fetchIssued, .fetchSettled .failed]) = [row1] :=
  ⟨change_keeps_rows_until_response browserWithRow .nextClicked
      [.fetchIssued, .aliveOnlyChanged true, .fetchIssued, .fetchSettled .failed] rfl,
    by decide⟩

/-! ## Schedules -/

/-- C14: a successful `toggleSchedule(X)` with response `r` yields a collection
of the same length in which, at every position, an entity with id `X` has
become `r` and an entity with another id is the one that was there; a failed
toggle leaves the collection (and the whole state) unchanged. -/
theorem toggleSchedule_replaces_in_place (st : ScheduledScans) (X : Id) (r : Schedule) :
    (toggleSchedule X (.ok r) st).schedules.length = st.schedules.length
      ∧ (∀ (i : Nat) (s : Schedule), st.schedules[i]? = some s →
          (s.id = X → (toggleSchedule X (.ok r) st).schedules[i]? = some r)
            ∧ (s.id ≠ X → (toggleSchedule X (.ok r) st).schedules[i]? = some s))
      ∧ toggleSchedule X .failed st = st
      ∧ (toggleSchedule X .failed st).schedules = st.schedules := by
  refine ⟨by simp [toggleSchedule], ?_, rfl, rfl⟩
  intro i s hs
  constructor
  · intro hX
    simp [toggleSchedule, List.getElem?_map, hs, hX]
  · intro hX
    simp [toggleSchedule, List.getElem?_map, hs, hX]

/-- Dropping a prefix twice: what `dropWhile` leaves is empty or starts with an
element that fails the test, so it is all-passing only when empty. -/
theorem dropWhile_all_iff_nil {α : Type} (p : α → Bool) (l : List α) :
    (∀ x ∈ l.dropWhile p, p x = true) ↔ l.dropWhile p = [] := by
  constructor
  · intro h
    by_contra hne
    have h1 := List.head_dropWhile_not p l hne
    have h2 := h _ (List.head_mem hne)
    rw [h1] at h2
    exact Bool.false_ne_true h2
  · intro h x hx
    rw [h] at hx
    exact absurd hx (List.not_mem_nil x)

/-- The trimmed string is empty exactly when every character of the string is
white space (the empty string included). -/
theorem trim_eq_empty_iff (s : String) :
    trim s = "" ↔ ∀ c ∈ s.toList, isWhiteSpace c = true := by
  have hmk : ∀ l : List Char, String.mk l = "" ↔ l = [] := by
    intro l
    constructor
    · intro h
      have h2 := congrArg String.data h
      exact h2
    · intro h
      rw [h]
  unfold trim
  rw [hmk, List.reverse_eq_nil_iff, List.dropWhile_eq_nil_iff]
  constructor
  · intro h
    have h1 : ∀ x ∈ s.toList.dropWhile isWhiteSpace, isWhiteSpace x = true :=
      fun x hx => h x (List.mem_reverse.mpr hx)
    exact List.dropWhile_eq_nil_iff.mp ((dropWhile_all_iff_nil _ _).mp h1)
  · intro h x hx
    have hnil := List.dropWhile_eq_nil_iff.mpr h
    rw [hnil] at hx
    simp at hx

/-- C15: with a domain that is empty or all white space `createSchedule`
issues no request and leaves the state, so the collection, unchanged; with any
other domain and a successful response `s` it issues the one create request
and yields the collection followed by `s`: the length is one more, the last
entry is `s`, and its `is_active` is the one the server returned.  For
`acme.com` answered with a paused schedule the new entry is paused. -/
theorem createSchedule_validates_then_appends (apiUrl : String) (st : ScheduledScans)
    (r : Fetched Schedule) (s : Schedule) :
    ((∀ c ∈ st.domain.toList, isWhiteSpace c = true) → createSchedule apiUrl r st = ([], st))
      ∧ (¬ (∀ c ∈ st.domain.toList, isWhiteSpace c = true) →
          (createSchedule apiUrl (.ok s) st).1 = [.fetch (createSchedule_request apiUrl st)]
            ∧ (createSchedule apiUrl (.ok s) st).2.schedules = st.schedules ++ [s]
            ∧ (createSchedule apiUrl (.ok s) st).2.schedules.length = st.schedules.length + 1
            ∧ (createSchedule apiUrl (.ok s) st).2.schedules.getLast? = some s
            ∧ (createSchedule apiUrl (.ok s) st).2.schedules.getLast?.map Schedule.is_active
                = some s.is_active)
      ∧ (createSchedule "" (.ok scheduleAcme)
            { ScheduledScans.init with domain := " acme.com " }).2.schedules = [scheduleAcme]
      ∧ scheduleAcme.is_active = false
      ∧ createSchedule "" (.ok scheduleAcme) { ScheduledScans.init with domain := "  " }
          = ([], { ScheduledScans.init with domain := "  " }) := by
  refine ⟨?_, ?_, by decide, by decide, by decide⟩
  · intro h
    have ht := (trim_eq_empty_iff st.domain).mpr h
    simp [createSchedule, ht]
  · intro h
    have ht : ¬ trim st.domain = "" := fun e => h ((trim_eq_empty_iff st.domain).mp e)
    simp [createSchedule, ht, createSchedule_resume]

/-! ## Cells of a result row -/

/-- C16: the Ports cell shows exactly the first 5 entries of `ports` (all of
them when there are at most 5) and the Technologies cell the first 3 of
`technologies`; the `+n` badge is there exactly when the length exceeds 5
(resp. 3) and then `n` is the length minus 5 (resp. 3), so entries shown plus
overflow count is the length; and the rows of the rendered table are the held
results themselves, their arrays whole. -/
theorem cells_truncate_with_overflow (r : Result) :
    (portsCell r).badges = (r.ports.getD []).take 5
      ∧ ((r.ports.getD []).length ≤ 5 → (portsCell r).badges = r.ports.getD [])
      ∧ ((portsCell r).overflow.isSome = true ↔ (r.ports.getD []).length > 5)
      ∧ (∀ n, (portsCell r).overflow = some n → n = ((r.ports.getD []).length : Int) - 5)
      ∧ ((portsCell r).badges.length : Int) + (portsCell r).overflow.getD 0
          = (r.ports.getD []).length
      ∧ (technologiesCell r).badges = (r.technologies.getD []).take 3
      ∧ ((r.technologies.getD []).length ≤ 3 →
          (technologiesCell r).badges = r.technologies.getD [])
      ∧ ((technologiesCell r).overflow.isSome = true ↔ (r.technologies.getD []).length > 3)
      ∧ (∀ n, (technologiesCell r).overflow = some n →
          n = ((r.technologies.getD []).length : Int) - 3)
      ∧ ((technologiesCell r).badges.length : Int) + (technologiesCell r).overflow.getD 0
          = (r.technologies.getD []).length
      ∧ (∀ (b : Browser) (rows : List Result) (p : Option Pagination),
          render b = .table rows p → rows = b.results) := by
  have hports : ∀ l : List Int,
      (if l.length > 0 then l.take 5 else []) = l.take 5 := by
    intro l
    cases l <;> simp
  have htech : ∀ l : List String,
      (if l.length > 0 then l.take 3 else []) = l.take 3 := by
    intro l
    cases l <;> simp
  refine ⟨?_, ?_, ?_, ?_, ?_, ?_, ?_, ?_, ?_, ?_, ?_⟩
  · cases h : r.ports <;> simp [portsCell, h, hports]
  · cases h : r.ports with
    | none => simp [portsCell, h]
    | some l =>
      intro hl
      simp only [Option.getD_some] at hl
      simp [portsCell, h, hports, List.take_of_length_le hl]
  · cases h : r.ports with
    | none => simp [portsCell, h]
    | some l =>
      by_cases hl : l.length > 5 <;> simp [portsCell, h, hl]
  · cases h : r.ports with
    | none => simp [portsCell, h]
    | some l =>
      by_cases hl : l.length > 5
      · simp [portsCell, h, hl]
      · simp [portsCell, h, hl]
  · cases h : r.ports with
    | none => simp [portsCell, h]
    | some l =>
      by_cases hl : l.length > 5
      · simp [portsCell, h, hl, hports, List.length_take]
        omega
      · simp [portsCell, h, hl, hports, List.length_take]
        omega
  · cases h : r.technologies <;> simp [technologiesCell, h, htech]
  · cases h : r.technologies with
    | none => simp [technologiesCell, h]
    | some l =>
      intro hl
      simp only [Option.getD_some] at hl
      simp [technologiesCell, h, htech, List.take_of_length_le hl]
  · cases h : r.technologies with
    | none => simp [technologiesCell, h]
    | some l =>
      by_cases hl : l.length > 3 <;> simp [technologiesCell, h, hl]
  · cases h : r.technologies with
    | none => simp [technologiesCell, h]
    | some l =>
      by_cases hl : l.length > 3
      · simp [technologiesCell, h, hl]
      · simp [technologiesCell, h, hl]
  · cases h : r.technologies with
    | none => simp [technologiesCell, h]
    | some l =>
      by_cases hl : l.length > 3
      · simp [technologiesCell, h, hl, htech, List.length_take]
        omega
      · simp [technologiesCell, h, hl, htech, List.length_take]
        omega
  · intro b rows p hr
    unfold render at hr
    split_ifs at hr <;> simp_all

/-! ## Stats cards -/

/-- The expression `x || 0` is the number when there is one and `0` when
there is none. -/
theorem orZero_eq_getD (v : Option Int) : orZero v = v.getD 0 := by
  cases v with
  | none => rfl
  | some n =>
    by_cases h : n = 0 <;> simp [orZero, h]

/-- C17: `StatsCards` gives a view for every input: for `null` the four
placeholder cards, and for every snapshot, whichever of `scans`, `subdomains`
and their counters are missing, six numbers each of which is the counter at
its path when the path is there and `0` when it is not. -/
theorem StatsCards_defaults_to_zero (stats : Stats) :
    StatsCards none = .placeholders 4 "--" "Loading..."
      ∧ StatsCards (some stats)
          = .cards ((stats.scans.bind (·.total)).getD 0)
              ((stats.subdomains.bind (·.total)).getD 0)
              ((stats.subdomains.bind (·.alive)).getD 0)
              ((stats.subdomains.bind (·.with_open_ports)).getD 0)
              ((stats.scans.bind (·.completed)).getD 0)
              ((stats.scans.bind (·.running)).getD 0)
      ∧ (stats.scans = none → stats.subdomains = none →
          StatsCards (some stats) = .cards 0 0 0 0 0 0)
      ∧ (∀ (sc : ScanCounters) (sd : SubdomainCounters) (a b c d e f : Int),
          stats.scans = some sc → stats.subdomains = some sd →
          sc.total = some a → sd.total = some b → sd.alive = some c →
          sd.with_open_ports = some d → sc.completed = some e → sc.running = some f →
          StatsCards (some stats) = .cards a b c d e f) := by
  have hcards : StatsCards (some stats)
      = .cards ((stats.scans.bind (·.total)).getD 0)
          ((stats.subdomains.bind (·.total)).getD 0)
          ((stats.subdomains.bind (·.alive)).getD 0)
          ((stats.subdomains.bind (·.with_open_ports)).getD 0)
          ((stats.scans.bind (·.completed)).getD 0)
          ((stats.scans.bind (·.running)).getD 0) := by
    simp only [StatsCards, orZero_eq_getD]
  refine ⟨rfl, hcards, ?_, ?_⟩
  · intro h1 h2
    rw [hcards, h1, h2]
    rfl
  · intro sc sd a b c d e f h1 h2 ha hb hc hd he hf
    rw [hcards, h1, h2]
    simp [ha, hb, hc, hd, he, hf]

/-! ## Frame of `deleteScan` -/

/-- C18 on the code: `deleteScan(X)` keeps exactly the entities whose id
differs from `X`, in their original order, the collection being the same
whether or not the selection is cleared, and the clear-filter action leaves
the collection unchanged; the selection is left as it is when the selection
the handler saw at the click is `null` or another id.  But the test
`selectedScan === scanId` reads the value the closure captured, not the
current one: with scan `1` selected, Delete is clicked on `1`, View is clicked
on `2` before the response, and when the response arrives the selection,
which points at `2`, is cleared. -/
theorem deleteScan_clears_later_selection (st : AppState) (X : Id) (sel : Option Id)
    (r : Fetched Unit) :
    (deleteScan X sel (.ok ()) st).scans = st.scans.filter (fun s => decide (s.id ≠ X))
      ∧ List.Sublist (deleteScan X sel (.ok ()) st).scans st.scans
      ∧ (∀ s ∈ st.scans, s.id ≠ X → s ∈ (deleteScan X sel (.ok ()) st).scans)
      ∧ (sel ≠ some X → (deleteScan X sel r st).selectedScan = st.selectedScan)
      ∧ (st.selectedScan ≠ some X →
          (deleteScan X st.selectedScan r st).selectedScan = st.selectedScan)
      ∧ (deleteScan X (some X) (.ok ()) st).scans = (deleteScan X none (.ok ()) st).scans
      ∧ (step st .filterCleared).scans = st.scans
      ∧ (step st .filterCleared).selectedScan = none
      ∧ run AppState.init
            [.scansFetched (.ok { scans := some [scan1, scan2] }), .viewClicked (.num 1),
             .tabClicked .scans] = app12
      ∧ (run app12 [.viewClicked (.num 2)]).selectedScan = some (.num 2)
      ∧ (run app12 [.viewClicked (.num 2),
                    .deleteSettled (.num 1) app12.selectedScan (.ok ())]).selectedScan = none
      ∧ (run app12 [.viewClicked (.num 2),
                    .deleteSettled (.num 1) app12.selectedScan (.ok ())]).scans = [scan2] := by
  have hscans : ∀ sel' : Option Id, (deleteScan X sel' (.ok ()) st).scans
      = st.scans.filter (fun s => s.id != X) := by
    intro sel'
    unfold deleteScan
    split_ifs <;> rfl
  have hfun : (fun s : Scan => s.id != X) = (fun s : Scan => decide (s.id ≠ X)) := by
    funext s
    by_cases h : s.id = X <;> simp [h]
  have hsel : ∀ sel' : Option Id, sel' ≠ some X →
      (deleteScan X sel' r st).selectedScan = st.selectedScan := by
    intro sel' h
    cases r <;> simp [deleteScan, h]
  refine ⟨?_, ?_, ?_, hsel sel, hsel st.selectedScan, ?_, rfl, rfl, by decide, by decide,
    by decide, by decide⟩
  · rw [hscans, hfun]
  · rw [hscans]
    exact List.filter_sublist st.scans
  · intro s hs hne
    rw [hscans]
    exact List.mem_filter.mpr ⟨hs, by simpa using hne⟩
  · rw [hscans, hscans]

/-! ## Page range -/

/-- One enabled click keeps `0 ≤ page`, `page * 50 < total` and the total. -/
theorem click_keeps_range (b : Browser) (c : Click) (h0 : 0 ≤ b.page)
    (hlt : b.page * 50 < b.total) (hc : c.enabled b = true) :
    0 ≤ (b.step c.event).page ∧ (b.step c.event).page * 50 < (b.step c.event).total
      ∧ (b.step c.event).total = b.total := by
  cases c with
  | previous =>
    have hne : b.page ≠ 0 := by
      simpa [Click.enabled, previousDisabled] using hc
    have hmax : max 0 (b.page - 1) = b.page - 1 := max_eq_right (by omega)
    simp only [Click.event, Browser.step, onPrevious, hmax]
    refine ⟨by omega, by omega, trivial⟩
  | next =>
    have hnext : (b.page + 1) * 50 < b.total := by
      simpa [Click.enabled, nextDisabled, pageSize] using hc
    simp only [Click.event, Browser.step, onNext]
    refine ⟨by omega, by omega, trivial⟩

theorem clicks_keep_range (cs : List Click) :
    ∀ b : Browser, 0 ≤ b.page → b.page * 50 < b.total → clicksEnabled b cs = true →
      0 ≤ (b.run (cs.map Click.event)).page
        ∧ (b.run (cs.map Click.event)).page * 50 < b.total
        ∧ (b.run (cs.map Click.event)).total = b.total := by
  induction cs with
  | nil => intro b h0 hlt _; exact ⟨h0, hlt, rfl⟩
  | cons c cs ih =>
    intro b h0 hlt hcs
    simp only [clicksEnabled, Bool.and_eq_true] at hcs
    obtain ⟨h0', hlt', htot⟩ := click_keeps_range b c h0 hlt hcs.1
    have h := ih (b.step c.event) h0' hlt' hcs.2
    rw [htot] at h
    exact h

/-- C19: from page `0` with a total above 50 that stays fixed, every sequence
of Previous / Next clicks, each made on a button that is enabled when it is
clicked, keeps `0 ≤ page` and `page * 50 < total`, so the page number shown,
`page + 1`, is at most the page count `ceil(total / 50)`; and the handler of
Previous never yields a negative page, whatever page it is applied at, and
yields `0` at page `0`. -/
theorem clicks_keep_page_in_range (b : Browser) (cs : List Click) (hpage : b.page = 0)
    (htotal : b.total > 50) (hcs : clicksEnabled b cs = true) :
    0 ≤ (b.run (cs.map Click.event)).page
      ∧ (b.run (cs.map Click.event)).page * 50 < b.total
      ∧ (b.run (cs.map Click.event)).total = b.total
      ∧ (b.run (cs.map Click.event)).page + 1 ≤ (b.total + pageSize - 1) / pageSize
      ∧ (∀ b1 : Browser, 0 ≤ (onPrevious b1).page)
      ∧ (∀ b1 : Browser, b1.page = 0 → (onPrevious b1).page = 0) := by
  obtain ⟨h0, hlt, htot⟩ := clicks_keep_range cs b (by omega) (by omega) hcs
  refine ⟨h0, hlt, htot, ?_, ?_, ?_⟩
  · rw [Int.le_ediv_iff_mul_le (by decide : (0 : Int) < pageSize)]
    simp only [pageSize]
    omega
  · intro b1
    exact le_max_left 0 (b1.page - 1)
  · intro b1 h
    simp [onPrevious, h]

/-- C19 at a browser with total 120: Next, Next, Previous ends on page `1`. -/
theorem clicks_keep_page_in_range_witness :
    0 ≤ (browserWithRow.run ([Click.next, Click.next, Click.previous].map Click.event)).page
      ∧ (browserWithRow.run ([Click.next, Click.next, Click.previous].map Click.event)).page * 50
          < browserWithRow.total
      ∧ (browserWithRow.run ([Click.next, Click.next, Click.previous].map Click.event)).total
          = browserWithRow.total
      ∧ (browserWithRow.run ([Click.next, Click.next, Click.previous].map Click.event)).page + 1
          ≤ (browserWithRow.total + pageSize - 1) / pageSize
      ∧ (∀ b1 : Browser, 0 ≤ (onPrevious b1).page)
      ∧ (∀ b1 : Browser, b1.page = 0 → (onPrevious b1).page = 0) :=
  clicks_keep_page_in_range browserWithRow [Click.next, Click.next, Click.previous] rfl
    (by decide) (by decide)

end Bbh
